import Mathlib

/-!
Shallow embedding of `src/backend/source_retrieval.py` (class `SourceRetriever`)
and proofs about the properties its specification states.

External collaborators (the HTTP client, BeautifulSoup's anchor scan, the
newspaper article parser, the Gemini model and `json.loads`) are passed in as
explicit oracle parameters; the repository's own control flow — URL unwrapping,
the search loop, per-URL extraction isolation, context aggregation and the
verification result handling — is translated function by function.  Strings are
modelled at the character level (faithful to CPython for ASCII data, which is
all the claims exercise).
-/

namespace SourceRetrieval

/-! ## urllib.parse machinery used by `_unwrap_duckduckgo_url`

`_unwrap_duckduckgo_url` calls `urlparse`, `parse_qs` and `unquote` from
`urllib.parse`.  These are embedded below with CPython's semantics (ASCII
level: a percent escape decodes to the character with that code; CPython would
additionally UTF-8-decode multi-byte sequences, which no claim exercises). -/

/-- The numeric value of a hexadecimal digit, `none` for other characters. -/
def hexVal (c : Char) : Option Nat :=
  if '0' ≤ c ∧ c ≤ '9' then some (c.toNat - '0'.toNat)
  else if 'a' ≤ c ∧ c ≤ 'f' then some (c.toNat - 'a'.toNat + 10)
  else if 'A' ≤ c ∧ c ≤ 'F' then some (c.toNat - 'A'.toNat + 10)
  else none

/-- `urllib.parse.unquote` on characters: `%XX` with two hex digits becomes the
character with code `XX`; a `%` not followed by two hex digits is kept
literally (CPython behaviour).  This byte-level model agrees with CPython —
which accumulates runs of escaped bytes and UTF-8-decodes them with
`errors='replace'` — exactly when every escaped byte is ASCII (`< 0x80`),
since each such byte is its own one-byte UTF-8 sequence and literal
characters pass through untouched in both; `escapesAscii` below states that
guard, and the theorems about unwrapping hypothesise it. -/
def unquoteL : List Char → List Char
  | '%' :: a :: b :: rest =>
    match hexVal a, hexVal b with
    | some ha, some hb => Char.ofNat (16 * ha + hb) :: unquoteL rest
    | _, _ => '%' :: unquoteL (a :: b :: rest)
  | c :: rest => c :: unquoteL rest
  | [] => []

/-- The domain guard under which `unquoteL` is faithful to CPython's
`unquote`: every `%XX` escape the scan would decode has a value below
`0x80`. -/
def escapesAscii : List Char → Bool
  | '%' :: a :: b :: rest =>
    match hexVal a, hexVal b with
    | some ha, some hb => decide (16 * ha + hb < 0x80) && escapesAscii rest
    | _, _ => escapesAscii (a :: b :: rest)
  | _ :: rest => escapesAscii rest
  | [] => true

/-- `str.replace('+', ' ')`, applied by `parse_qsl` before unquoting. -/
def plusSpace (l : List Char) : List Char :=
  l.map (fun c => if c = '+' then ' ' else c)

/-- Python `str.split(sep)`: every separator occurrence splits; the empty
string yields `[[]]`. -/
def pySplit (sep : Char) : List Char → List (List Char)
  | [] => [[]]
  | c :: rest =>
    let groups := pySplit sep rest
    if c = sep then [] :: groups
    else
      match groups with
      | g :: gs => (c :: g) :: gs
      | [] => [[c]]

/-- Python `str.split(sep, 1)` when the separator occurs: the part before the
first separator and the part after it; `none` when the separator is absent. -/
def splitOnce (sep : Char) : List Char → Option (List Char × List Char)
  | [] => none
  | c :: rest =>
    if c = sep then some ([], rest)
    else
      match splitOnce sep rest with
      | some (a, b) => some (c :: a, b)
      | none => none

/-- `urllib.parse.parse_qsl` with its default `keep_blank_values=False`:
split the query on `&`, drop empty chunks, drop chunks without `=`, drop
chunks whose value is empty, and decode name and value with
`unquote(.replace('+', ' '))`. -/
def parse_qsl (qs : List Char) : List (List Char × List Char) :=
  (pySplit '&' qs).filterMap fun nv =>
    if nv = [] then none
    else
      match splitOnce '=' nv with
      | none => none
      | some (n, v) =>
        if v = [] then none
        else some (unquoteL (plusSpace n), unquoteL (plusSpace v))

/-- Appending one name/value pair to the insertion-ordered dict
`parse_qs` builds. -/
def qsAppend (d : List (List Char × List (List Char))) (n v : List Char) :
    List (List Char × List (List Char)) :=
  match d with
  | [] => [(n, [v])]
  | (k, vs) :: rest => if k = n then (k, vs ++ [v]) :: rest else (k, vs) :: qsAppend rest n v

/-- `urllib.parse.parse_qs`: the pairs of `parse_qsl` grouped into an
insertion-ordered dict of value lists. -/
def parse_qs (qs : List Char) : List (List Char × List (List Char)) :=
  (parse_qsl qs).foldl (fun d nv => qsAppend d nv.1 nv.2) []

/-- Dict lookup on the `parse_qs` result (`"uddg" in query_params` /
`query_params["uddg"]`). -/
def qsLookup (d : List (List Char × List (List Char))) (n : List Char) :
    Option (List (List Char)) :=
  match d with
  | [] => none
  | (k, vs) :: rest => if k = n then some vs else qsLookup rest n

/-- Everything after the first occurrence of `sep`, `none` when absent. -/
def afterFirst (sep : Char) : List Char → Option (List Char)
  | [] => none
  | c :: rest => if c = sep then some rest else afterFirst sep rest

/-- The left strip `urlsplit` applies first
(`url.lstrip(_WHATWG_C0_CONTROL_OR_SPACE)`): leading characters with code at
most `0x20` are removed. -/
def lstripControl (url : List Char) : List Char :=
  url.dropWhile (fun c => c.toNat ≤ 0x20)

/-- The `_UNSAFE_URL_BYTES_TO_REMOVE` pass of `urlsplit`: every tab, carriage
return and newline is removed from the URL before parsing. -/
def removeUnsafe (url : List Char) : List Char :=
  url.filter (fun c => c ≠ '\t' ∧ c ≠ '\r' ∧ c ≠ '\n')

/-- Characters `urlsplit` accepts inside a URL scheme. -/
def isSchemeChar (c : Char) : Bool :=
  c.isAlphanum || c = '+' || c = '-' || c = '.'

/-- Scheme removal as in `urlsplit`: when the text before the first `:` is a
non-empty run of scheme characters starting with a letter, drop it together
with the colon. -/
def dropScheme (url : List Char) : List Char :=
  match splitOnce ':' url with
  | some (before, after) =>
    if before ≠ [] ∧ (before.headD ' ').isAlpha ∧ before.all isSchemeChar then after
    else url
  | none => url

/-- A character that keeps the netloc scan going: the netloc runs until the
next `/`, `?` or `#` (`_splitnetloc`). -/
def netlocChar (c : Char) : Bool :=
  c ≠ '/' ∧ c ≠ '?' ∧ c ≠ '#'

/-- The netloc condition under which `urlsplit` raises
`ValueError("Invalid IPv6 URL")`: one bracket without the other. -/
def bracketMismatch (netloc : List Char) : Bool :=
  ('[' ∈ netloc ∧ ']' ∉ netloc) ∨ (']' ∈ netloc ∧ '[' ∉ netloc)

/-- The query of a URL once scheme and netloc have been taken off: the
fragment (from the first `#`) is removed, then the query is everything after
the first `?` of what remains (empty when there is no `?`). -/
def queryFrom (url : List Char) : List Char :=
  (afterFirst '?' (url.takeWhile (fun c => c ≠ '#'))).getD []

/-- The `query` component of `urllib.parse.urlsplit`, raising included:
after the whitespace passes (`lstripControl`, `removeUnsafe`) and scheme
removal, a leading `//` introduces the netloc (up to the next `/`, `?` or
`#`), and a netloc holding `[` without `]` or `]` without `[` raises
`ValueError("Invalid IPv6 URL")` — modelled as `none`; otherwise the query is
read off the remainder.  Not embedded: the bracketed-host validation CPython
3.11+ adds when both brackets are present (it needs an IP-literal parser) and
the non-ASCII NFKC netloc check of `_checknetloc` — the theorems below keep
netlocs bracket-free and ASCII, where neither check can fire. -/
def urlsplitQuery (url0 : List Char) : Option (List Char) :=
  let url := dropScheme (removeUnsafe (lstripControl url0))
  if url.take 2 = ['/', '/'] then
    if bracketMismatch ((url.drop 2).takeWhile netlocChar) then none
    else some (queryFrom ((url.drop 2).dropWhile netlocChar))
  else some (queryFrom url)

/-- `SourceRetriever._unwrap_duckduckgo_url`: parse the URL with `urlparse`
and its query with `parse_qs`; if a `uddg` parameter is present return
`unquote` of its first value, otherwise return the input unchanged.  The
Python body is wrapped in `try/except` returning `None`: a `ValueError`
raised by `urlparse` (the `none` of `urlsplitQuery`) takes that path.  The
`some []` case is unreachable — `parse_qs` never stores an empty value
list — and stands for the IndexError the `[0]` lookup would raise there. -/
def unwrap_duckduckgo_url (wrapped_url : String) : Option String :=
  match urlsplitQuery wrapped_url.toList with
  | none => none
  | some query =>
    match qsLookup (parse_qs query) ("uddg".toList) with
    | some (v :: _) => some (String.mk (unquoteL v))
    | some [] => none
    | none => some wrapped_url

/-! ## Search Client (`search_articles_duckduckgo`)

The HTTP GET and BeautifulSoup's scan are external: the oracle argument is
`some hrefs` — the `href` attributes of the `a.result__a` anchors in document
order — or `none` when the request or parse raised (the `except` branch).
`find_all(..., limit=num_results)` keeps the first `num_results` anchors. -/

/-- The result-accumulating loop body of `search_articles_duckduckgo`:
unwrap each href and keep it when the unwrapped value is truthy
(`if original_url:` — `None` and the empty string are both dropped). -/
def searchLoop : List String → List String
  | [] => []
  | href :: rest =>
    match unwrap_duckduckgo_url href with
    | some u => if u = "" then searchLoop rest else u :: searchLoop rest
    | none => searchLoop rest

/-- `SourceRetriever.search_articles_duckduckgo`: `none` anchors model the
`except` branch (error printed, `[]` returned). -/
def search_articles_duckduckgo (anchors : Option (List String)) (num_results : Nat) :
    List String :=
  match anchors with
  | none => []
  | some hrefs => searchLoop (hrefs.take num_results)

/-! ## Article Extractor (`extract_article_info`)

`newspaper.Article` (download + parse) is external: the oracle argument maps a
URL to the parsed article's fields, or `none` when `download()`/`parse()`
raised (the `except` branch of `extract_article_info`, which prints the error
and returns `None`). -/

/-- The fields `extract_article_info` reads off a parsed `newspaper.Article`:
`title` and `text` are strings (possibly empty), `publish_date` may be absent,
`authors` is a list.  The publish date is abstracted to a number. -/
structure DownloadedArticle where
  title : String
  text : String
  publish_date : Option Nat
  authors : List String
deriving Repr, DecidableEq

/-- The `ArticleInfo` dataclass. -/
structure ArticleInfo where
  url : String
  title : Option String := none
  content : Option String := none
  date : Option Nat := none
  authors : Option (List String) := none
  source : Option String := none
  claim : Option String := none
deriving Repr, DecidableEq

/-- `urlparse(url).netloc`: after the scheme, a leading `//` introduces the
authority, which runs until the next `/`, `?` or `#`; otherwise empty. -/
def netloc (url : String) : String :=
  match dropScheme url.toList with
  | '/' :: '/' :: tail => String.mk (tail.takeWhile netlocChar)
  | _ => ""

/-- `SourceRetriever.extract_article_info`: on a successful download/parse,
build the `ArticleInfo` record from the article's fields and the URL's host;
on failure return `None` (the per-URL `except` branch). -/
def extract_article_info (download : String → Option DownloadedArticle)
    (url : String) (claim : Option String) : Option ArticleInfo :=
  match download url with
  | none => none
  | some article =>
    some { url := url
           title := some article.title
           content := some article.text
           date := article.publish_date
           authors := some article.authors
           source := some (netloc url)
           claim := claim }

/-! ## Verification Client (`verify_claim_with_gemini`)

The Gemini model is external: the oracle `respond` maps the prompt to
`Except.error e` (the `generate_content` call raised, caught by the outer
`except` which returns `(None, str(e))`), `Except.ok none` (`response.parts`
empty) or `Except.ok (some t)` (`response.text = t`).  `json.loads` is the
external oracle `loads`, returning the parsed JSON value or `none` for a
`JSONDecodeError`. -/

/-- JSON values as `json.loads` produces them. -/
inductive Json where
  | null : Json
  | bool : Bool → Json
  | num : Int → Json
  | str : String → Json
  | arr : List Json → Json
  | obj : List (String × Json) → Json
deriving Repr

/-- Python truthiness of a decoded JSON value (`if verification_result:`). -/
def Json.truthy : Json → Bool
  | .null => false
  | .bool b => b
  | .num n => n ≠ 0
  | .str s => s ≠ ""
  | .arr l => !l.isEmpty
  | .obj l => !l.isEmpty

/-- What `verify_claim_with_gemini` returns: the bare `None` of the
unconfigured-model path, or the `(result, raw_response)` tuple of every other
path. -/
inductive VerifyReturn where
  | bare : VerifyReturn
  | pair : Option Json → String → VerifyReturn
deriving Repr

/-- The prompt f-string of `verify_claim_with_gemini` (indentation of the
Python triple-quoted literal preserved; `\x7b`/`\x7d` are the literal
braces of the JSON template). -/
def buildPrompt (claim context : String) : String :=
  "\n            You must respond with valid JSON only. Analyze this claim using the provided context:\n            \n            Claim: " ++
  claim ++
  "\n            \n            Context:\n            " ++
  context ++
  "\n            \n            Respond with this exact JSON structure, no other text:\n            \x7b\n                \"claim\": \"" ++
  claim ++
  "\",\n                \"verdict\": \"<TRUE/FALSE/PARTIALLY TRUE/INSUFFICIENT EVIDENCE>\",\n                \"confidence\": \"<HIGH/MEDIUM/LOW>\",\n                \"explanation\": \"<your explanation>\",\n                \"supporting_evidence\": [\"<evidence1>\", \"<evidence2>\"],\n                \"contrary_evidence\": [\"<evidence1>\", \"<evidence2>\"],\n                \"limitations\": [\"<limitation1>\", \"<limitation2>\"]\n            \x7d\n            "

/-- `SourceRetriever.verify_claim_with_gemini`.  With no configured model the
function returns the bare `None` (`.bare`).  Otherwise `raw_response` is the
response text when `response.parts` is non-empty and the sentinel
`"No response generated"` when it is empty; a successful `json.loads` yields
`(result, raw_response)`, a `JSONDecodeError` yields `(None, raw_response)`,
an empty response yields `(None, raw_response)`, and an exception from the
model call yields `(None, str(e))`. -/
def verify_claim_with_gemini (modelConfigured : Bool)
    (respond : String → Except String (Option String))
    (loads : String → Option Json)
    (claim context : String) : VerifyReturn :=
  if modelConfigured then
    match respond (buildPrompt claim context) with
    | .error e => .pair none e
    | .ok resp =>
      let raw_response := match resp with
        | some t => t
        | none => "No response generated"
      match resp with
      | some t =>
        match loads t with
        | some result => .pair (some result) raw_response
        | none => .pair none raw_response
      | none => .pair none raw_response
  else
    .bare

/-! ## Pipeline Orchestrator (`search_and_process_articles`) -/

/-- Python truthiness of the optional `content` field
(`if verify and article_info.content:`). -/
def optStrTruthy : Option String → Bool
  | none => false
  | some s => s ≠ ""

/-- The per-URL loop of `search_and_process_articles`: each URL is extracted;
a successful record is appended to `data`, and when `verify` is set and the
record's content is truthy, `content + "\n\n"` is appended to `context`. -/
def processLoop (download : String → Option DownloadedArticle)
    (claim : String) (verify : Bool) : List String → List ArticleInfo × String
  | [] => ([], "")
  | url :: rest =>
    match extract_article_info download url (some claim) with
    | some info =>
      let p := processLoop download claim verify rest
      (info :: p.1,
        (if verify && optStrTruthy info.content then info.content.getD "" ++ "\n\n" else "")
          ++ p.2)
    | none => processLoop download claim verify rest

/-- Python truthiness of the unpacked `verification_result`
(`if verification_result:` — `None` and falsy JSON values fail the test). -/
def optJsonTruthy : Option Json → Bool
  | some j => j.truthy
  | none => false

/-- The value `search_and_process_articles` returns: the DataFrame rows
(`data`), the local `context` accumulator (observable as the text embedded in
the verification prompt), and the two `attrs` entries — `verification` (set
only when the parsed result is truthy) and `raw_gemini_response` (set whenever
the verification branch ran). -/
structure PipelineRun where
  data : List ArticleInfo
  context : String
  verification : Option Json
  raw_gemini_response : Option String
deriving Repr

/-- `SourceRetriever.search_and_process_articles`.  Returns `none` only where
Python would raise: unpacking `verification_result, raw_response = ...` when
`verify_claim_with_gemini` returned the bare `None` (a `TypeError`); the
guard `if verify and self.model` makes that branch unreachable, which the
theorems below prove. -/
def search_and_process_articles
    (anchors : Option (List String))
    (download : String → Option DownloadedArticle)
    (modelConfigured : Bool)
    (respond : String → Except String (Option String))
    (loads : String → Option Json)
    (claim : String) (num_results : Nat) (verify : Bool) : Option PipelineRun :=
  let urls := search_articles_duckduckgo anchors num_results
  let p := processLoop download claim verify urls
  if verify && modelConfigured then
    match verify_claim_with_gemini modelConfigured respond loads claim p.2 with
    | .bare => none
    | .pair verification_result raw_response =>
      some { data := p.1
             context := p.2
             verification :=
               if optJsonTruthy verification_result then verification_result else none
             raw_gemini_response := some raw_response }
  else
    some { data := p.1, context := p.2, verification := none, raw_gemini_response := none }

/-! ## Derived characterizations and spec-modelled comparison definitions -/

/-- The unwrap-and-keep step of the search loop as a single partial map:
the unwrapped URL when unwrapping succeeded with a truthy value, else
nothing. -/
def unwrapKeep (href : String) : Option String :=
  match unwrap_duckduckgo_url href with
  | some u => if u = "" then none else some u
  | none => none

/-- The article table a run produces: one record per URL whose extraction
succeeded, in URL order. -/
def tableOf (download : String → Option DownloadedArticle)
    (claim : String) (urls : List String) : List ArticleInfo :=
  urls.filterMap (fun u => extract_article_info download u (some claim))

/-- One record's contribution to the aggregated context: its content followed
by a blank-line separator when the content is present and non-empty, nothing
otherwise. -/
def pieceOf (r : ArticleInfo) : String :=
  if optStrTruthy r.content then r.content.getD "" ++ "\n\n" else ""

/-- The aggregated context the code builds: the concatenation of the pieces. -/
def contextOf : List ArticleInfo → String
  | [] => ""
  | r :: rest => pieceOf r ++ contextOf rest

/-- Modelled from the spec: the context text of §4.4 and §8 as the spec words
it — "the content fields of only the records that have non-null content,
joined in input order with a blank-line separator".  Stated for comparison
with `contextOf`, which is what the code computes. -/
def specContextOf (records : List ArticleInfo) : String :=
  String.intercalate "\n\n" (records.filterMap ArticleInfo.content)

/-- Lookup of an object field of a decoded JSON object. -/
def jLookup : List (String × Json) → String → Option Json
  | [], _ => none
  | (k, v) :: rest, key => if k = key then some v else jLookup rest key

/-- Whether a JSON value is a string. -/
def isJStr : Json → Bool
  | .str _ => true
  | _ => false

/-- Whether a JSON value is an array of strings. -/
def isJStrList : Json → Bool
  | .arr l => l.all isJStr
  | _ => false

/-- Modelled from the spec: the `VerificationResult` schema of §3 / §4.5 — an
object with a string `claim`, a `verdict` among the four verdict labels, a
`confidence` among the three levels, a string `explanation`, and string
arrays `supporting_evidence`, `contrary_evidence` and `limitations`.  The
code has no such validator; this definition exists to state whether a decoded
response matches the schema. -/
def matchesSchema : Json → Bool
  | .obj fields =>
    (match jLookup fields "claim" with
     | some (.str _) => true
     | _ => false) &&
    (match jLookup fields "verdict" with
     | some (.str v) =>
       v = "TRUE" || v = "FALSE" || v = "PARTIALLY TRUE" || v = "INSUFFICIENT EVIDENCE"
     | _ => false) &&
    (match jLookup fields "confidence" with
     | some (.str c) => c = "HIGH" || c = "MEDIUM" || c = "LOW"
     | _ => false) &&
    (match jLookup fields "explanation" with
     | some (.str _) => true
     | _ => false) &&
    (match jLookup fields "supporting_evidence" with
     | some l => isJStrList l
     | _ => false) &&
    (match jLookup fields "contrary_evidence" with
     | some l => isJStrList l
     | _ => false) &&
    (match jLookup fields "limitations" with
     | some l => isJStrList l
     | _ => false)
  | _ => false

/-! ## Concrete oracle instances used by witnesses and counterexamples

Each `loads...` function is a stand-in for `json.loads`, faithful at the one
input the surrounding theorem feeds it (documented on the definition). -/

/-- A download oracle for which every extraction fails. -/
def dlNone : String → Option DownloadedArticle := fun _ => none

/-- A download oracle: the URL `"u1"` parses to an article whose body text is
`"a"`; every other URL fails extraction. -/
def dlC2 : String → Option DownloadedArticle :=
  fun u =>
    if u = "u1" then some { title := "t", text := "a", publish_date := none, authors := [] }
    else none

/-- A download oracle: `"u1"` and `"u3"` parse (body texts `"a"` and `"b"`),
`"u2"` fails extraction. -/
def dlC3 : String → Option DownloadedArticle :=
  fun u =>
    if u = "u1" then some { title := "t1", text := "a", publish_date := none, authors := [] }
    else if u = "u3" then some { title := "t3", text := "b", publish_date := none, authors := [] }
    else none

/-- The JSON value `json.loads` produces for `"\x7b\"foo\": 1\x7d"`: an object
with the single field `foo`, which does not match the VerificationResult
schema. -/
def jC1 : Json := Json.obj [("foo", Json.num 1)]

/-- `json.loads` stand-in, faithful at the one input used: the text
`"\x7b\"foo\": 1\x7d"` is valid JSON and decodes to `jC1`; other inputs are
treated as undecodable. -/
def loadsC1 : String → Option Json :=
  fun s => if s = "\x7b\"foo\": 1\x7d" then some jC1 else none

/-- `json.loads` stand-in, faithful at the one input used: the text
`"[1, 2]"` is valid JSON and decodes to the array `[1, 2]`; other inputs are
treated as undecodable. -/
def loadsC6 : String → Option Json :=
  fun s => if s = "[1, 2]" then some (Json.arr [Json.num 1, Json.num 2]) else none

/-- `json.loads` stand-in that decodes nothing (every input raises
`JSONDecodeError`), faithful for the non-JSON texts the theorems feed it. -/
def loadsNone : String → Option Json := fun _ => none

/-! ## Helper lemmas -/

theorem searchLoop_eq_filterMap (l : List String) :
    searchLoop l = l.filterMap unwrapKeep := by
  induction l with
  | nil => rfl
  | cons href rest ih =>
    simp only [searchLoop, List.filterMap_cons, unwrapKeep]
    cases unwrap_duckduckgo_url href with
    | none => simpa using ih
    | some u =>
      by_cases hu : u = "" <;> simp [hu, ih]

theorem search_eq_filterMap (anchors : List String) (n : Nat) :
    search_articles_duckduckgo (some anchors) n = (anchors.take n).filterMap unwrapKeep := by
  simp [search_articles_duckduckgo, searchLoop_eq_filterMap]

theorem processLoop_fst (download : String → Option DownloadedArticle)
    (claim : String) (verify : Bool) (urls : List String) :
    (processLoop download claim verify urls).1 = tableOf download claim urls := by
  induction urls with
  | nil => rfl
  | cons url rest ih =>
    simp only [processLoop, tableOf, List.filterMap_cons]
    cases extract_article_info download url (some claim) with
    | none => simpa [tableOf] using ih
    | some info => simp [tableOf] at ih ⊢; exact ih

theorem processLoop_snd_true (download : String → Option DownloadedArticle)
    (claim : String) (urls : List String) :
    (processLoop download claim true urls).2 =
      contextOf (tableOf download claim urls) := by
  induction urls with
  | nil => rfl
  | cons url rest ih =>
    simp only [processLoop, tableOf, List.filterMap_cons]
    cases extract_article_info download url (some claim) with
    | none => simpa [tableOf] using ih
    | some info =>
      simp only [tableOf] at ih
      simp [contextOf, pieceOf, ih]

theorem processLoop_snd_false (download : String → Option DownloadedArticle)
    (claim : String) (urls : List String) :
    (processLoop download claim false urls).2 = "" := by
  induction urls with
  | nil => rfl
  | cons url rest ih =>
    simp only [processLoop]
    cases extract_article_info download url (some claim) with
    | none => simpa using ih
    | some info => simpa using ih

theorem length_filterMap_add_countP {α β : Type} (f : α → Option β) (l : List α) :
    (l.filterMap f).length + l.countP (fun u => (f u).isNone) = l.length := by
  induction l with
  | nil => rfl
  | cons a rest ih =>
    simp only [List.filterMap_cons, List.countP_cons]
    cases h : f a with
    | none =>
      simp [h] at ih ⊢
      omega
    | some b =>
      simp [h] at ih ⊢
      omega

theorem verify_configured_pair (respond : String → Except String (Option String))
    (loads : String → Option Json) (claim context : String) :
    ∃ r s, verify_claim_with_gemini true respond loads claim context =
      VerifyReturn.pair r s := by
  unfold verify_claim_with_gemini
  cases hr : respond (buildPrompt claim context) with
  | error e => exact ⟨none, e, by simp [hr]⟩
  | ok resp =>
    cases resp with
    | none => exact ⟨none, "No response generated", by simp [hr]⟩
    | some t =>
      cases hl : loads t with
      | none => exact ⟨none, t, by simp [hr, hl]⟩
      | some result => exact ⟨some result, t, by simp [hr, hl]⟩

theorem sapa_of_guard_off
    (anchors : Option (List String)) (download : String → Option DownloadedArticle)
    (modelConfigured : Bool) (respond : String → Except String (Option String))
    (loads : String → Option Json) (claim : String) (num_results : Nat) (verify : Bool)
    (h : (verify && modelConfigured) = false) :
    search_and_process_articles anchors download modelConfigured respond loads
        claim num_results verify =
      some { data := (processLoop download claim verify
                        (search_articles_duckduckgo anchors num_results)).1
             context := (processLoop download claim verify
                        (search_articles_duckduckgo anchors num_results)).2
             verification := none
             raw_gemini_response := none } := by
  unfold search_and_process_articles
  simp [h]

theorem sapa_of_guard_on
    (anchors : Option (List String)) (download : String → Option DownloadedArticle)
    (respond : String → Except String (Option String))
    (loads : String → Option Json) (claim : String) (num_results : Nat)
    (r : Option Json) (s : String)
    (h : verify_claim_with_gemini true respond loads claim
          (processLoop download claim true
            (search_articles_duckduckgo anchors num_results)).2 =
        VerifyReturn.pair r s) :
    search_and_process_articles anchors download true respond loads
        claim num_results true =
      some { data := (processLoop download claim true
                        (search_articles_duckduckgo anchors num_results)).1
             context := (processLoop download claim true
                        (search_articles_duckduckgo anchors num_results)).2
             verification := if optJsonTruthy r then r else none
             raw_gemini_response := some s } := by
  unfold search_and_process_articles
  simp [h]

theorem verify_true_error (respond : String → Except String (Option String))
    (loads : String → Option Json) (claim context e : String)
    (hr : respond (buildPrompt claim context) = Except.error e) :
    verify_claim_with_gemini true respond loads claim context =
      VerifyReturn.pair none e := by
  unfold verify_claim_with_gemini
  simp [hr]

theorem verify_true_empty (respond : String → Except String (Option String))
    (loads : String → Option Json) (claim context : String)
    (hr : respond (buildPrompt claim context) = Except.ok none) :
    verify_claim_with_gemini true respond loads claim context =
      VerifyReturn.pair none "No response generated" := by
  unfold verify_claim_with_gemini
  simp [hr]

theorem verify_true_badjson (respond : String → Except String (Option String))
    (loads : String → Option Json) (claim context t : String)
    (hr : respond (buildPrompt claim context) = Except.ok (some t))
    (hl : loads t = none) :
    verify_claim_with_gemini true respond loads claim context =
      VerifyReturn.pair none t := by
  unfold verify_claim_with_gemini
  simp [hr, hl]

theorem verify_true_json (respond : String → Except String (Option String))
    (loads : String → Option Json) (claim context t : String) (j : Json)
    (hr : respond (buildPrompt claim context) = Except.ok (some t))
    (hl : loads t = some j) :
    verify_claim_with_gemini true respond loads claim context =
      VerifyReturn.pair (some j) t := by
  unfold verify_claim_with_gemini
  simp [hr, hl]

theorem sapa_run (anchors : Option (List String))
    (download : String → Option DownloadedArticle)
    (modelConfigured : Bool) (respond : String → Except String (Option String))
    (loads : String → Option Json) (claim : String) (num_results : Nat) (verify : Bool) :
    ∃ run, search_and_process_articles anchors download modelConfigured respond loads
        claim num_results verify = some run ∧
      run.data = tableOf download claim (search_articles_duckduckgo anchors num_results) ∧
      run.context = (processLoop download claim verify
        (search_articles_duckduckgo anchors num_results)).2 := by
  cases hguard : verify && modelConfigured with
  | false =>
    exact ⟨_, sapa_of_guard_off anchors download modelConfigured respond loads claim
        num_results verify hguard, by simp [processLoop_fst], rfl⟩
  | true =>
    have hv : verify = true := by
      cases verify
      · simp at hguard
      · rfl
    have hc : modelConfigured = true := by
      cases modelConfigured
      · simp at hguard
      · rfl
    subst hv hc
    obtain ⟨r, s, hpair⟩ := verify_configured_pair respond loads claim
      (processLoop download claim true (search_articles_duckduckgo anchors num_results)).2
    exact ⟨_, sapa_of_guard_on anchors download respond loads claim num_results r s hpair,
      by simp [processLoop_fst], rfl⟩

/-! ## The claims -/

/-- C2 (amended): with verification enabled, the aggregated context text is
the concatenation, in input order, of each extracted record's content followed
by a blank-line separator, taking only records whose content is present and
non-empty (so the text carries a trailing blank line rather than being a
blank-line-separated join); records whose content contributes nothing still
appear in the table, which lists every successfully extracted record in URL
order. -/
theorem spec_C2_amended (download : String → Option DownloadedArticle)
    (claim : String) (urls : List String) :
    (processLoop download claim true urls).1 = tableOf download claim urls ∧
    (processLoop download claim true urls).2 = contextOf (tableOf download claim urls) :=
  ⟨processLoop_fst download claim true urls, processLoop_snd_true download claim urls⟩

/-- C2 counterexample: one extracted record with content `"a"` yields the
context `"a\n\n"`, while the claimed blank-line-separated join of the
non-null contents is `"a"`; the two differ, so the context does not equal the
join the claim describes. -/
theorem spec_C2_counterexample :
    (processLoop dlC2 "c" true ["u1"]).2 = "a\n\n" ∧
    specContextOf (processLoop dlC2 "c" true ["u1"]).1 = "a" ∧
    ("a\n\n" : String) ≠ "a" :=
  ⟨rfl, rfl, by decide⟩

/-- C3 (confirmed): for every run, the orchestrator returns a result (no
exception escapes a per-URL extraction failure), and the article table has
exactly `m − k` rows, where `m` is the number of URLs the search returned and
`k` the number of them whose extraction failed; in particular the table never
has more rows than URLs. -/
theorem spec_C3_confirmed (anchors : Option (List String))
    (download : String → Option DownloadedArticle)
    (modelConfigured : Bool) (respond : String → Except String (Option String))
    (loads : String → Option Json) (claim : String) (num_results : Nat) (verify : Bool) :
    ∃ run, search_and_process_articles anchors download modelConfigured respond loads
        claim num_results verify = some run ∧
      run.data.length =
        (search_articles_duckduckgo anchors num_results).length -
          (search_articles_duckduckgo anchors num_results).countP
            (fun u => (extract_article_info download u (some claim)).isNone) ∧
      run.data.length + (search_articles_duckduckgo anchors num_results).countP
            (fun u => (extract_article_info download u (some claim)).isNone) =
        (search_articles_duckduckgo anchors num_results).length ∧
      run.data.length ≤ (search_articles_duckduckgo anchors num_results).length := by
  obtain ⟨run, hrun, hdata, -⟩ :=
    sapa_run anchors download modelConfigured respond loads claim num_results verify
  have hcount := length_filterMap_add_countP
    (fun u => extract_article_info download u (some claim))
    (search_articles_duckduckgo anchors num_results)
  refine ⟨run, hrun, ?_, ?_, ?_⟩ <;> rw [hdata] <;> unfold tableOf <;> omega

/-- C7 (confirmed): for every anchor list and bound `n`, the search result is
the unwrap-and-keep map over the first `n` anchors in document order; hence it
has at most `n` elements, and every returned URL is the unwrapped value of
one of those anchors. -/
theorem spec_C7_confirmed (anchors : List String) (n : Nat) :
    search_articles_duckduckgo (some anchors) n = (anchors.take n).filterMap unwrapKeep ∧
    (search_articles_duckduckgo (some anchors) n).length ≤ n ∧
    ∀ u ∈ search_articles_duckduckgo (some anchors) n,
      ∃ href ∈ anchors.take n, unwrap_duckduckgo_url href = some u := by
  refine ⟨search_eq_filterMap anchors n, ?_, ?_⟩
  · rw [search_eq_filterMap]
    calc ((anchors.take n).filterMap unwrapKeep).length
        ≤ (anchors.take n).length := List.length_filterMap_le _ _
      _ ≤ n := List.length_take_le _ _
  · intro u hu
    rw [search_eq_filterMap] at hu
    rcases List.mem_filterMap.mp hu with ⟨href, hmem, hk⟩
    unfold unwrapKeep at hk
    cases h : unwrap_duckduckgo_url href with
    | none => rw [h] at hk; cases hk
    | some v =>
      rw [h] at hk
      by_cases hv : v = ""
      · simp [hv] at hk
      · simp [hv] at hk
        exact ⟨href, hmem, by rw [h, hk]⟩

/-- C8 (confirmed): when the search request or parse fails, the search client
returns the empty sequence instead of raising, and the pipeline still
completes, with an empty article table and empty context. -/
theorem spec_C8_confirmed (num_results : Nat)
    (download : String → Option DownloadedArticle)
    (modelConfigured : Bool) (respond : String → Except String (Option String))
    (loads : String → Option Json) (claim : String) (verify : Bool) :
    search_articles_duckduckgo none num_results = [] ∧
    ∃ run, search_and_process_articles none download modelConfigured respond loads
        claim num_results verify = some run ∧
      run.data = [] ∧ run.context = "" := by
  refine ⟨rfl, ?_⟩
  obtain ⟨run, hrun, hdata, hctx⟩ :=
    sapa_run none download modelConfigured respond loads claim num_results verify
  refine ⟨run, hrun, ?_, ?_⟩
  · rw [hdata]; rfl
  · rw [hctx]; cases verify <;> rfl

/-- C9 (confirmed): with no model configured, `verify_claim_with_gemini`
returns the bare `None`, which is not the `(result, rawResponseText)` pair of
every other path (a caller unpacking the pair shape would fail there); the
orchestrator avoids that path by guarding on the model being configured, so a
run with an unconfigured model completes with neither verification nor raw
response attached. -/
theorem spec_C9_confirmed :
    (∀ (respond : String → Except String (Option String))
       (loads : String → Option Json) (claim context : String),
       verify_claim_with_gemini false respond loads claim context = VerifyReturn.bare) ∧
    (∀ (r : Option Json) (s : String), VerifyReturn.bare ≠ VerifyReturn.pair r s) ∧
    (∀ (anchors : Option (List String)) (download : String → Option DownloadedArticle)
       (respond : String → Except String (Option String)) (loads : String → Option Json)
       (claim : String) (num_results : Nat) (verify : Bool),
       ∃ run, search_and_process_articles anchors download false respond loads
           claim num_results verify = some run ∧
         run.verification = none ∧ run.raw_gemini_response = none) := by
  refine ⟨fun _ _ _ _ => rfl, ?_, ?_⟩
  · intro r s h
    exact VerifyReturn.noConfusion h
  intro anchors download respond loads claim num_results verify
  have h : (verify && false) = false := by cases verify <;> rfl
  exact ⟨_, sapa_of_guard_off anchors download false respond loads claim
      num_results verify h, rfl, rfl⟩

/-- C10 (confirmed): with `verify = False` the context accumulator stays the
empty string — whatever content the extracted articles have — both in the
per-URL loop and in the run the orchestrator returns; content is accumulated
into the context only when verification is requested. -/
theorem spec_C10_confirmed (download : String → Option DownloadedArticle)
    (claim : String) (urls : List String) (anchors : Option (List String))
    (modelConfigured : Bool) (respond : String → Except String (Option String))
    (loads : String → Option Json) (num_results : Nat) :
    (processLoop download claim false urls).2 = "" ∧
    ∃ run, search_and_process_articles anchors download modelConfigured respond loads
        claim num_results false = some run ∧ run.context = "" := by
  refine ⟨processLoop_snd_false download claim urls, ?_⟩
  obtain ⟨run, hrun, -, hctx⟩ :=
    sapa_run anchors download modelConfigured respond loads claim num_results false
  exact ⟨run, hrun, by rw [hctx]; exact processLoop_snd_false download claim _⟩

/-- C1 (amended): the run carries a verification value exactly when
verification was requested, a model is configured, the model's raw response
text decodes under `json.loads`, and the decoded value is truthy — and then
the attached value is exactly the decoded JSON, with no defaults substituted;
no schema validation beyond JSON decoding is performed.  Whenever the
verification branch ran and the model produced text, that exact text is
attached as the raw response. -/
theorem spec_C1_amended (anchors : Option (List String))
    (download : String → Option DownloadedArticle)
    (modelConfigured : Bool) (respond : String → Except String (Option String))
    (loads : String → Option Json) (claim : String) (num_results : Nat) (verify : Bool) :
    ∃ run, search_and_process_articles anchors download modelConfigured respond loads
        claim num_results verify = some run ∧
      (∀ j : Json, run.verification = some j ↔
        verify = true ∧ modelConfigured = true ∧
        ∃ t, respond (buildPrompt claim run.context) = Except.ok (some t) ∧
          loads t = some j ∧ j.truthy = true) ∧
      (verify = true → modelConfigured = true →
        ∀ t, respond (buildPrompt claim run.context) = Except.ok (some t) →
          run.raw_gemini_response = some t) := by
  cases verify with
  | false =>
    refine ⟨_, sapa_of_guard_off anchors download modelConfigured respond loads claim
        num_results false rfl, ?_, ?_⟩
    · intro j
      constructor
      · intro h
        exact absurd h (by simp)
      · rintro ⟨hv, -⟩
        exact absurd hv (by simp)
    · intro hv
      exact absurd hv (by simp)
  | true =>
    cases modelConfigured with
    | false =>
      refine ⟨_, sapa_of_guard_off anchors download false respond loads claim
          num_results true rfl, ?_, ?_⟩
      · intro j
        constructor
        · intro h
          exact absurd h (by simp)
        · rintro ⟨-, hc, -⟩
          exact absurd hc (by simp)
      · intro _ hc
        exact absurd hc (by simp)
    | true =>
      cases hr : respond (buildPrompt claim
          (processLoop download claim true
            (search_articles_duckduckgo anchors num_results)).2) with
      | error e =>
        refine ⟨_, sapa_of_guard_on anchors download respond loads claim num_results
            none e (verify_true_error respond loads claim _ e hr), ?_, ?_⟩
        · intro j
          dsimp only
          constructor
          · intro h
            exact absurd h (by simp [optJsonTruthy])
          · rintro ⟨-, -, t, ht, -⟩
            rw [hr] at ht
            exact Except.noConfusion ht
        · intro _ _ t ht
          dsimp only at ht
          rw [hr] at ht
          exact Except.noConfusion ht
      | ok resp =>
        cases resp with
        | none =>
          refine ⟨_, sapa_of_guard_on anchors download respond loads claim num_results
              none "No response generated"
              (verify_true_empty respond loads claim _ hr), ?_, ?_⟩
          · intro j
            dsimp only
            constructor
            · intro h
              exact absurd h (by simp [optJsonTruthy])
            · rintro ⟨-, -, t, ht, -⟩
              rw [hr] at ht
              simp at ht
          · intro _ _ t ht
            dsimp only at ht
            rw [hr] at ht
            simp at ht
        | some t0 =>
          cases hl : loads t0 with
          | none =>
            refine ⟨_, sapa_of_guard_on anchors download respond loads claim num_results
                none t0 (verify_true_badjson respond loads claim _ t0 hr hl), ?_, ?_⟩
            · intro j
              dsimp only
              constructor
              · intro h
                exact absurd h (by simp [optJsonTruthy])
              · rintro ⟨-, -, t, ht, hlt, -⟩
                rw [hr] at ht
                simp only [Except.ok.injEq, Option.some.injEq] at ht
                rw [← ht] at hlt
                rw [hl] at hlt
                exact Option.noConfusion hlt
            · intro _ _ t ht
              dsimp only at ht ⊢
              rw [hr] at ht
              simp only [Except.ok.injEq, Option.some.injEq] at ht
              rw [ht]
          | some j0 =>
            refine ⟨_, sapa_of_guard_on anchors download respond loads claim num_results
                (some j0) t0 (verify_true_json respond loads claim _ t0 j0 hr hl), ?_, ?_⟩
            · intro j
              dsimp only
              constructor
              · intro h
                cases hj : j0.truthy with
                | false => simp [optJsonTruthy, hj] at h
                | true =>
                  simp only [optJsonTruthy, hj, if_pos, Option.some.injEq] at h
                  subst h
                  exact ⟨rfl, rfl, t0, hr, hl, hj⟩
              · rintro ⟨-, -, t, ht, hlt, htruthy⟩
                rw [hr] at ht
                simp only [Except.ok.injEq, Option.some.injEq] at ht
                rw [← ht, hl] at hlt
                have hj : j = j0 := by
                  cases hlt
                  rfl
                subst hj
                simp [optJsonTruthy, htruthy]
            · intro _ _ t ht
              dsimp only at ht ⊢
              rw [hr] at ht
              simp only [Except.ok.injEq, Option.some.injEq] at ht
              rw [ht]

/-- C1 counterexample: with verification requested and a model configured,
the model text `"\x7b\"foo\": 1\x7d"` — valid JSON that does not match the
VerificationResult schema — is decoded and attached to the run as the
verification value, so a value is attached without the raw response matching
the schema, refuting "only when ... matching the VerificationResult
schema". -/
theorem spec_C1_counterexample :
    (search_and_process_articles (some []) dlNone true
        (fun _ => Except.ok (some "\x7b\"foo\": 1\x7d")) loadsC1 "claim" 5 true).map
      PipelineRun.verification = some (some jC1) ∧
    matchesSchema jC1 = false :=
  ⟨rfl, rfl⟩

/-- C5 (amended): an empty model response (no generated parts) yields the
failure pair: no verification result, and the sentinel raw text — which the
code spells `"No response generated"`, with a capital `N`. -/
theorem spec_C5_amended (respond : String → Except String (Option String))
    (loads : String → Option Json) (claim context : String)
    (hr : respond (buildPrompt claim context) = Except.ok none) :
    verify_claim_with_gemini true respond loads claim context =
      VerifyReturn.pair none "No response generated" :=
  verify_true_empty respond loads claim context hr

/-- C5 witness: the amended theorem evaluated at a concrete empty-response
model. -/
theorem spec_C5_witness :
    verify_claim_with_gemini true (fun _ => Except.ok none) loadsNone
        "the sky is green" "ctx" = VerifyReturn.pair none "No response generated" :=
  spec_C5_amended (fun _ => Except.ok none) loadsNone "the sky is green" "ctx" rfl

/-- C5 counterexample: the sentinel the code attaches is
`"No response generated"`, which is not the string `"no response generated"`
the claim states. -/
theorem spec_C5_counterexample :
    verify_claim_with_gemini true (fun _ => Except.ok none) loadsNone
        "claim" "ctx" = VerifyReturn.pair none "No response generated" ∧
    ("No response generated" : String) ≠ "no response generated" :=
  ⟨rfl, by decide⟩

/-- C6 (amended): model text on which `json.loads` raises — text that does
not parse as JSON at all, such as "Sorry, I cannot answer" — yields the
failure pair: no verification result, and the literal model output preserved
exactly as the raw response.  (Text that parses as JSON but does not match
the schema is not a failure; see the counterexample.) -/
theorem spec_C6_amended (respond : String → Except String (Option String))
    (loads : String → Option Json) (claim context t : String)
    (hr : respond (buildPrompt claim context) = Except.ok (some t))
    (hl : loads t = none) :
    verify_claim_with_gemini true respond loads claim context =
      VerifyReturn.pair none t :=
  verify_true_badjson respond loads claim context t hr hl

/-- C6 witness: the amended theorem evaluated at the claim's own example, the
non-JSON model text "Sorry, I cannot answer". -/
theorem spec_C6_witness :
    verify_claim_with_gemini true (fun _ => Except.ok (some "Sorry, I cannot answer"))
        loadsNone "claim" "ctx" =
      VerifyReturn.pair none "Sorry, I cannot answer" :=
  spec_C6_amended (fun _ => Except.ok (some "Sorry, I cannot answer")) loadsNone
    "claim" "ctx" "Sorry, I cannot answer" rfl rfl

/-- C6 counterexample: the model text `"[1, 2]"` parses as JSON but does not
match the VerificationResult schema, yet `verify_claim_with_gemini` returns a
success pair carrying the decoded array rather than the failure the claim
states for every text "that does not parse as JSON matching the schema". -/
theorem spec_C6_counterexample :
    verify_claim_with_gemini true (fun _ => Except.ok (some "[1, 2]")) loadsC6
        "claim" "ctx" =
      VerifyReturn.pair (some (Json.arr [Json.num 1, Json.num 2])) "[1, 2]" ∧
    matchesSchema (Json.arr [Json.num 1, Json.num 2]) = false :=
  ⟨rfl, rfl⟩

theorem takeWhile_ne_of_not_mem (sep : Char) (l : List Char) (h : sep ∉ l) :
    l.takeWhile (fun c => c ≠ sep) = l := by
  induction l with
  | nil => rfl
  | cons c rest ih =>
    have hc : c ≠ sep := fun he => h (he ▸ List.mem_cons_self c rest)
    have hr : sep ∉ rest := fun hm => h (List.mem_cons_of_mem c hm)
    have hc' : (decide (c ≠ sep)) = true := decide_eq_true hc
    rw [List.takeWhile_cons, if_pos hc', ih hr]

theorem afterFirst_append (sep : Char) (b rest : List Char) (h : sep ∉ b) :
    afterFirst sep (b ++ sep :: rest) = some rest := by
  induction b with
  | nil => simp [afterFirst]
  | cons c bs ih =>
    have hc : c ≠ sep := fun he => h (he ▸ List.mem_cons_self c bs)
    have hb : sep ∉ bs := fun hm => h (List.mem_cons_of_mem c hm)
    simp [afterFirst, hc, ih hb]

theorem afterFirst_of_not_mem (sep : Char) (l : List Char) (h : sep ∉ l) :
    afterFirst sep l = none := by
  induction l with
  | nil => rfl
  | cons c rest ih =>
    have hc : c ≠ sep := fun he => h (he ▸ List.mem_cons_self c rest)
    have hr : sep ∉ rest := fun hm => h (List.mem_cons_of_mem c hm)
    simp [afterFirst, hc, ih hr]

theorem pySplit_of_not_mem (sep : Char) (l : List Char) (h : sep ∉ l) :
    pySplit sep l = [l] := by
  induction l with
  | nil => rfl
  | cons c rest ih =>
    have hc : c ≠ sep := fun he => h (he ▸ List.mem_cons_self c rest)
    have hr : sep ∉ rest := fun hm => h (List.mem_cons_of_mem c hm)
    simp [pySplit, hc, ih hr]

theorem splitOnce_uddg (e : List Char) :
    splitOnce '=' ("uddg=".toList ++ e) = some ("uddg".toList, e) := rfl

theorem parse_qsl_uddg (e : List Char) (hae : '&' ∉ e) (hne : e ≠ []) :
    parse_qsl ("uddg=".toList ++ e) = [("uddg".toList, unquoteL (plusSpace e))] := by
  have hmem : '&' ∉ ("uddg=".toList ++ e) := by
    intro hm
    rcases List.mem_append.mp hm with h1 | h2
    · revert h1
      decide
    · exact hae h2
  have hnv : ("uddg=".toList ++ e) ≠ [] := by
    show 'u' :: ("ddg=".toList ++ e) ≠ []
    exact List.cons_ne_nil _ _
  have hu : unquoteL (plusSpace ("uddg".toList)) = "uddg".toList := rfl
  unfold parse_qsl
  rw [pySplit_of_not_mem '&' _ hmem, List.filterMap_cons, List.filterMap_nil,
    if_neg hnv, splitOnce_uddg]
  simp [hne, hu]
  rfl

theorem parse_qs_uddg (e : List Char) (hae : '&' ∉ e) (hne : e ≠ []) :
    parse_qs ("uddg=".toList ++ e) = [("uddg".toList, [unquoteL (plusSpace e)])] := by
  unfold parse_qs
  rw [parse_qsl_uddg e hae hne]
  rfl

theorem splitOnce_eq_some (sep : Char) :
    ∀ l x y : List Char, splitOnce sep l = some (x, y) → l = x ++ sep :: y ∧ sep ∉ x := by
  intro l
  induction l with
  | nil =>
    intro x y h
    exact absurd h (by simp [splitOnce])
  | cons c rest ih =>
    intro x y h
    by_cases hc : c = sep
    · subst hc
      simp only [splitOnce, if_pos rfl] at h
      simp at h
      obtain ⟨rfl, rfl⟩ := h
      exact ⟨rfl, by simp⟩
    · simp only [splitOnce] at h
      rw [if_neg hc] at h
      cases hs : splitOnce sep rest with
      | none =>
        rw [hs] at h
        exact absurd h (by simp)
      | some p =>
        obtain ⟨a, d⟩ := p
        rw [hs] at h
        simp at h
        obtain ⟨rfl, rfl⟩ := h
        obtain ⟨heq, hns⟩ := ih a d hs
        refine ⟨by rw [heq]; rfl, ?_⟩
        intro hm
        rcases List.mem_cons.mp hm with h1 | h2
        · exact hc h1.symm
        · exact hns h2

theorem append_sep_align (sep1 sep2 : Char) (hne12 : sep1 ≠ sep2) :
    ∀ x b rest y : List Char, b ++ sep1 :: rest = x ++ sep2 :: y → sep1 ∉ x →
      ∃ b2, b = x ++ sep2 :: b2 ∧ y = b2 ++ sep1 :: rest := by
  intro x
  induction x with
  | nil =>
    intro b rest y heq hx
    cases b with
    | nil =>
      simp at heq
      exact absurd heq.1 hne12
    | cons cb b1 =>
      simp at heq
      obtain ⟨rfl, rfl⟩ := heq
      exact ⟨b1, rfl, rfl⟩
  | cons cx x1 ih =>
    intro b rest y heq hx
    have hx1 : sep1 ∉ x1 := fun hm => hx (List.mem_cons_of_mem cx hm)
    cases b with
    | nil =>
      simp at heq
      apply absurd hx
      simp only [not_not]
      rw [heq.1]
      exact List.mem_cons_self cx x1
    | cons cb b1 =>
      simp at heq
      obtain ⟨rfl, heq2⟩ := heq
      obtain ⟨b2, hb2, hy⟩ := ih b1 rest y heq2 hx1
      refine ⟨b2, ?_, hy⟩
      rw [hb2]
      rfl

theorem takeWhile_append_stop (p : Char → Bool) (y : Char) (hy : p y = false)
    (xs ys : List Char) :
    (xs ++ y :: ys).takeWhile p = xs.takeWhile p := by
  induction xs with
  | nil => simp [List.takeWhile_cons, hy]
  | cons c xs1 ih =>
    by_cases hc : p c = true
    · simp [List.takeWhile_cons, hc, ih]
    · simp [List.takeWhile_cons, hc]

theorem dropWhile_append_stop (p : Char → Bool) (y : Char) (hy : p y = false)
    (xs ys : List Char) :
    (xs ++ y :: ys).dropWhile p = xs.dropWhile p ++ y :: ys := by
  induction xs with
  | nil => simp [List.dropWhile_cons, hy]
  | cons c xs1 ih =>
    by_cases hc : p c = true
    · simp [List.dropWhile_cons, hc, ih]
    · simp [List.dropWhile_cons, hc]

theorem lstripControl_eq_self (l : List Char) (h : ∀ c ∈ l, 0x20 < c.toNat) :
    lstripControl l = l := by
  cases l with
  | nil => rfl
  | cons c rest =>
    have hc := h c (List.mem_cons_self c rest)
    have hc' : ¬(c.toNat ≤ 0x20) := by omega
    simp [lstripControl, List.dropWhile_cons, hc']

theorem removeUnsafe_eq_self (l : List Char) (h : ∀ c ∈ l, 0x20 < c.toNat) :
    removeUnsafe l = l := by
  unfold removeUnsafe
  rw [List.filter_eq_self]
  intro a ha
  have h2 := h a ha
  simp only [decide_eq_true_eq]
  refine ⟨fun hh => ?_, fun hh => ?_, fun hh => ?_⟩ <;> subst hh <;>
    exact absurd h2 (by decide)

theorem dropScheme_shape (b rest : List Char) :
    ∃ b', (∀ c ∈ b', c ∈ b) ∧ dropScheme (b ++ '?' :: rest) = b' ++ '?' :: rest := by
  cases hs : splitOnce ':' (b ++ '?' :: rest) with
  | none =>
    refine ⟨b, fun c hc => hc, ?_⟩
    simp [dropScheme, hs]
  | some p =>
    obtain ⟨before, after⟩ := p
    obtain ⟨heq, -⟩ := splitOnce_eq_some ':' (b ++ '?' :: rest) before after hs
    by_cases hg : before ≠ [] ∧ (before.headD ' ').isAlpha ∧ before.all isSchemeChar
    · have hqbefore : '?' ∉ before := by
        intro hm
        have hall := List.all_eq_true.mp hg.2.2 '?' hm
        exact absurd hall (by decide)
      obtain ⟨b2, hb2, hafter⟩ :=
        append_sep_align '?' ':' (by decide) before b rest after heq hqbefore
      refine ⟨b2, ?_, ?_⟩
      · intro c hc
        rw [hb2]
        exact List.mem_append.mpr (Or.inr (List.mem_cons_of_mem ':' hc))
      · unfold dropScheme
        rw [hs]
        dsimp only
        rw [if_pos hg]
        exact hafter
    · refine ⟨b, fun c hc => hc, ?_⟩
      unfold dropScheme
      rw [hs]
      dsimp only
      rw [if_neg hg]

theorem queryFrom_append (x rest : List Char) (hqx : '?' ∉ x)
    (hh : '#' ∉ x ++ '?' :: rest) :
    queryFrom (x ++ '?' :: rest) = rest := by
  unfold queryFrom
  rw [takeWhile_ne_of_not_mem '#' _ hh, afterFirst_append '?' x rest hqx]
  rfl

theorem urlsplitQuery_uddg (b e : List Char)
    (hb : ∀ c ∈ b, 0x20 < c.toNat)
    (hqb : '?' ∉ b) (hhb : '#' ∉ b) (hlb : '[' ∉ b) (hrb : ']' ∉ b)
    (he : ∀ c ∈ e, 0x20 < c.toNat) (hhe : '#' ∉ e) :
    urlsplitQuery (b ++ '?' :: ("uddg=".toList ++ e)) =
      some ("uddg=".toList ++ e) := by
  have hprint : ∀ c ∈ b ++ '?' :: ("uddg=".toList ++ e), 0x20 < c.toNat := by
    intro c hc
    rcases List.mem_append.mp hc with h1 | h2
    · exact hb c h1
    · rcases List.mem_cons.mp h2 with h3 | h4
      · subst h3
        decide
      · rcases List.mem_append.mp h4 with h5 | h6
        · have huddg : ∀ c ∈ "uddg=".toList, 0x20 < c.toNat := by decide
          exact huddg c h5
        · exact he c h6
  have hhash : ∀ x : List Char, (∀ c ∈ x, c ∈ b) →
      '#' ∉ x ++ '?' :: ("uddg=".toList ++ e) := by
    intro x hx hm
    rcases List.mem_append.mp hm with h1 | h2
    · exact hhb (hx '#' h1)
    · rcases List.mem_cons.mp h2 with h3 | h4
      · exact absurd h3 (by decide)
      · rcases List.mem_append.mp h4 with h5 | h6
        · revert h5
          decide
        · exact hhe h6
  have h1 : lstripControl (b ++ '?' :: ("uddg=".toList ++ e)) =
      b ++ '?' :: ("uddg=".toList ++ e) := lstripControl_eq_self _ hprint
  have h2 : removeUnsafe (b ++ '?' :: ("uddg=".toList ++ e)) =
      b ++ '?' :: ("uddg=".toList ++ e) := removeUnsafe_eq_self _ hprint
  obtain ⟨b', hb'mem, hds⟩ := dropScheme_shape b ("uddg=".toList ++ e)
  have hqb' : '?' ∉ b' := fun hm => hqb (hb'mem _ hm)
  simp only [urlsplitQuery]
  rw [h1, h2, hds]
  by_cases hsl : (b' ++ '?' :: ("uddg=".toList ++ e)).take 2 = ['/', '/']
  · obtain ⟨bt, rfl⟩ : ∃ bt, b' = '/' :: '/' :: bt := by
      cases b' with
      | nil =>
        exfalso
        have ht : (([] : List Char) ++ '?' :: ("uddg=".toList ++ e)).take 2 =
            ['?', 'u'] := rfl
        rw [ht] at hsl
        exact absurd hsl (by decide)
      | cons c1 b1 =>
        cases b1 with
        | nil =>
          exfalso
          have ht : ((c1 :: []) ++ '?' :: ("uddg=".toList ++ e)).take 2 =
              [c1, '?'] := rfl
          rw [ht] at hsl
          simp at hsl
        | cons c2 bt =>
          have ht : ((c1 :: c2 :: bt) ++ '?' :: ("uddg=".toList ++ e)).take 2 =
              [c1, c2] := rfl
          rw [ht] at hsl
          simp at hsl
          obtain ⟨rfl, rfl⟩ := hsl
          exact ⟨bt, rfl⟩
    rw [if_pos hsl]
    have hbtmem : ∀ c ∈ bt, c ∈ b := fun c hc =>
      hb'mem c (List.mem_cons_of_mem '/' (List.mem_cons_of_mem '/' hc))
    have hdrop : ((('/' :: '/' :: bt) ++ '?' :: ("uddg=".toList ++ e))).drop 2 =
        bt ++ '?' :: ("uddg=".toList ++ e) := rfl
    rw [hdrop]
    have hnp : netlocChar '?' = false := by decide
    rw [takeWhile_append_stop netlocChar '?' hnp bt ("uddg=".toList ++ e),
      dropWhile_append_stop netlocChar '?' hnp bt ("uddg=".toList ++ e)]
    have hbm : bracketMismatch (List.takeWhile netlocChar bt) = false := by
      have hsub : ∀ c ∈ List.takeWhile netlocChar bt, c ∈ b := fun c hc =>
        hbtmem c ((List.takeWhile_prefix netlocChar).subset hc)
      have hnb : ¬(('[' ∈ List.takeWhile netlocChar bt ∧
            ']' ∉ List.takeWhile netlocChar bt) ∨
          (']' ∈ List.takeWhile netlocChar bt ∧
            '[' ∉ List.takeWhile netlocChar bt)) := by
        rintro (⟨hmem, -⟩ | ⟨hmem, -⟩)
        · exact hlb (hsub '[' hmem)
        · exact hrb (hsub ']' hmem)
      unfold bracketMismatch
      exact decide_eq_false hnb
    rw [hbm]
    simp only [Bool.false_eq_true, if_false]
    have hxsub : ∀ c ∈ List.dropWhile netlocChar bt, c ∈ b := fun c hc =>
      hbtmem c ((List.dropWhile_suffix netlocChar).subset hc)
    rw [queryFrom_append _ ("uddg=".toList ++ e) (fun hm => hqb (hxsub '?' hm))
      (hhash _ hxsub)]
  · rw [if_neg hsl]
    rw [queryFrom_append b' ("uddg=".toList ++ e) hqb' (hhash b' hb'mem)]

/-- The modelled `except` path of `_unwrap_duckduckgo_url`: a wrapped URL
whose authority holds an unbalanced bracket makes `urlparse` raise
`ValueError("Invalid IPv6 URL")`, and the function returns `None`. -/
theorem unwrap_invalid_ipv6 :
    unwrap_duckduckgo_url "http://[a/?uddg=x" = none := rfl

/-- C4 (amended): for a wrapped URL of the shape `base?uddg=value` — the
base made of printable ASCII, free of `?`, `#` and brackets (so `urlparse`
cannot raise and the whitespace passes are the identity), the value printable
ASCII, non-empty, free of `&` and `#`, and with only ASCII percent escapes at
both decode levels (where the byte-level unquote model is faithful to
CPython) — unwrapping returns the raw `uddg` value decoded TWICE: `parse_qs`
itself percent-decodes the value (after turning `+` into a space), and the
code applies `unquote` to that already-decoded value again — not the single
percent-decode the claim states.  For any URL that `urlsplit` parses to a
query carrying no `uddg` parameter, the input is returned unchanged. -/
theorem spec_C4_amended :
    (∀ b e : List Char,
      (∀ c ∈ b, 0x20 < c.toNat ∧ c.toNat < 0x7f) →
      '?' ∉ b → '#' ∉ b → '[' ∉ b → ']' ∉ b →
      (∀ c ∈ e, 0x20 < c.toNat ∧ c.toNat < 0x7f) →
      '&' ∉ e → '#' ∉ e → e ≠ [] →
      escapesAscii (plusSpace e) = true →
      escapesAscii (unquoteL (plusSpace e)) = true →
      unwrap_duckduckgo_url (String.mk (b ++ "?uddg=".toList ++ e)) =
        some (String.mk (unquoteL (unquoteL (plusSpace e))))) ∧
    (∀ (url : String) (q : List Char),
      urlsplitQuery url.toList = some q →
      qsLookup (parse_qs q) ("uddg".toList) = none →
      unwrap_duckduckgo_url url = some url) := by
  constructor
  · intro b e hb hqb hhb hlb hrb he hae hhe hne hesc1 hesc2
    have husq : urlsplitQuery ((String.mk (b ++ "?uddg=".toList ++ e)).toList) =
        some ("uddg=".toList ++ e) := by
      have hshape : (String.mk (b ++ "?uddg=".toList ++ e)).toList =
          b ++ '?' :: ("uddg=".toList ++ e) := by
        show b ++ "?uddg=".toList ++ e = b ++ '?' :: ("uddg=".toList ++ e)
        rw [List.append_assoc]
        rfl
      rw [hshape]
      exact urlsplitQuery_uddg b e (fun c hc => (hb c hc).1) hqb hhb hlb hrb
        (fun c hc => (he c hc).1) hhe
    unfold unwrap_duckduckgo_url
    simp only [husq]
    rw [parse_qs_uddg e hae hne]
    simp [qsLookup]
  · intro url q husq huddg
    have husq2 : urlsplitQuery url.data = some q := husq
    have huddg2 : qsLookup (parse_qs q) (['u', 'd', 'd', 'g']) = none := huddg
    simp [unwrap_duckduckgo_url, husq2, huddg2]

/-- C4 witness: the amended theorem at a concrete wrapped URL; the doubly
decoded value of `uddg=hello%20world` is `"hello world"`. -/
theorem spec_C4_witness :
    unwrap_duckduckgo_url (String.mk ("https://duckduckgo.com/l/".toList ++
        "?uddg=".toList ++ "hello%20world".toList)) =
      some (String.mk (unquoteL (unquoteL (plusSpace ("hello%20world".toList))))) ∧
    String.mk (unquoteL (unquoteL (plusSpace ("hello%20world".toList)))) = "hello world" :=
  ⟨spec_C4_amended.1 ("https://duckduckgo.com/l/".toList) ("hello%20world".toList)
      (by decide) (by decide) (by decide) (by decide) (by decide) (by decide)
      (by decide) (by decide) (by decide) (by decide) (by decide),
    by decide⟩

/-- C4 counterexample: in the URL
`https://duckduckgo.com/l/?uddg=a%2520b` the `uddg` parameter's raw value is
`a%2520b`, whose exact percent-decoding is `a%20b`; the code instead returns
`a b` (the value decoded twice), so unwrap does not return the exact
percent-decoded value of the parameter. -/
theorem spec_C4_counterexample :
    unwrap_duckduckgo_url "https://duckduckgo.com/l/?uddg=a%2520b" = some "a b" ∧
    String.mk (unquoteL ("a%2520b".toList)) = "a%20b" ∧
    ("a b" : String) ≠ "a%20b" :=
  ⟨rfl, rfl, by decide⟩

end SourceRetrieval
